import Mathlib

/- Verification of the field-extraction and batch pipeline of
   src/scraper.py (LinkedIn-Profile-Scraper).

   Text is modelled as lists of characters; the Python string operations
   used by the scraper (`in`, `split`, `split(sep, 1)`, `strip`,
   `startswith`/`endswith`, slicing) are given faithful executable
   counterparts below.  The rendered DOM is modelled as a query function
   from selector strings to element lists, so that Selenium's
   `find_element` (first match or a NoSuchElementException) becomes the
   head of the query result and `find_elements` the full list. -/

abbrev Str := List Char

def str (s : String) : Str := s.data

/-- Python `s.startswith(p)` on character lists. -/
def leadsWith : Str → Str → Bool
  | [], _ => true
  | _ :: _, [] => false
  | x :: xs, y :: ys => x == y && leadsWith xs ys

/-- Python `s.endswith(p)` on character lists. -/
def trailsWith (suf s : Str) : Bool :=
  leadsWith suf.reverse s.reverse

/-- Python `sub in s` (substring containment). -/
def hasSub (sub : Str) : Str → Bool
  | [] => leadsWith sub []
  | c :: rest => leadsWith sub (c :: rest) || hasSub sub rest

/-- Fuelled worker for `splitOn`; any fuel of at least the string's
    length gives Python's semantics (the fuel only bounds how many
    characters may be consumed). -/
def splitOnF (sep : Str) : Nat → Str → List Str
  | _, [] => [[]]
  | 0, s => [s]
  | fuel + 1, c :: rest =>
    if leadsWith sep (c :: rest) then
      [] :: splitOnF sep fuel (rest.drop (sep.length - 1))
    else
      match splitOnF sep fuel rest with
      | p :: ps => (c :: p) :: ps
      | [] => [[c]]

/-- Python `s.split(sep)`: split at every non-overlapping occurrence of
    `sep`, leftmost first. -/
def splitOn (sep s : Str) : List Str := splitOnF sep s.length s

/-- Python `s.split(sep, 1)`: split at the first occurrence of `sep` only. -/
def splitOnce (sep : Str) : Str → List Str
  | [] => [[]]
  | c :: rest =>
    if leadsWith sep (c :: rest) then
      [[], rest.drop (sep.length - 1)]
    else
      match splitOnce sep rest with
      | p :: ps => (c :: p) :: ps
      | [] => [[c]]

/-- Python `s.strip()`. -/
def trim (s : Str) : Str :=
  ((s.dropWhile Char.isWhitespace).reverse.dropWhile Char.isWhitespace).reverse

/- ----------------------------------------------------------------- -/
/- DOM model                                                          -/
/- ----------------------------------------------------------------- -/

/-- A rendered DOM element: its visible text and its scoped sub-queries
    (Selenium `element.find_element(s)` inside a found element). -/
inductive Element where
  | mk (text : Str) (sub : Str → List Element)

def Element.text : Element → Str
  | .mk t _ => t

def Element.sub : Element → Str → List Element
  | .mk _ f => f

/-- A rendered page.  `query` models `driver.find_elements` (and
    `driver.find_element` as its head); `aboutSibling` models the
    script-evaluated trimmed next-sibling text of the About heading used
    by the final About fallback (`none` when the heading lookup raises). -/
structure Page where
  query : Str → List Element
  aboutSibling : Option Str

structure ProfileRecord where
  name : Str
  headline : Str
  company : Str
  location : Str
  about : Str
deriving DecidableEq

/-- The record returned for a failed scrape (scraper.py lines 438-444)
    and the initial value of every field (lines 212-218). -/
def emptyRecord : ProfileRecord :=
  { name := [], headline := [], company := [], location := [], about := [] }

/- ----------------------------------------------------------------- -/
/- Selector candidate lists (scraper.py lines 226-232, 243-249,       -/
/- 260-266, 283-290, 385-396)                                         -/
/- ----------------------------------------------------------------- -/

def name_selectors : List Str :=
  [str "h1.text-heading-xlarge",
   str "h1.pv-text-details__left-panel h1",
   str "h1[data-generated-suggestion-target]",
   str "main section h1",
   str "h1"]

def headline_selectors : List Str :=
  [str ".text-body-medium.break-words",
   str ".pv-text-details__left-panel .text-body-medium",
   str ".ph5.pb5 .text-body-medium",
   str "[data-generated-suggestion-target] + .text-body-medium",
   str ".text-body-medium"]

def location_selectors : List Str :=
  [str ".text-body-small.inline.t-black--light.break-words",
   str ".pv-text-details__left-panel .text-body-small",
   str ".ph5.pb5 .text-body-small",
   str "[data-test-id=\x27location\x27]",
   str ".text-body-small"]

def experience_selectors : List Str :=
  [str "#experience ~ .pvs-list",
   str "section[data-section=\x27experience\x27]",
   str "#experience",
   str "[data-section=\x27experience\x27]",
   str "section[id*=\x27experience\x27]",
   str ".pvs-list[data-section=\x27experience\x27]"]

def first_position_selector : Str :=
  str ".pvs-list__item:first-child, li:first-child, .pvs-entity:first-child, .pvs-list__outer-container:first-child"

def about_selectors : List Str :=
  [str "section[data-section=\x27summary\x27] .inline-show-more-text",
   str "section[data-section=\x27summary\x27] .pv-shared-text-with-see-more",
   str "#about ~ .display-flex .inline-show-more-text",
   str "#about ~ .pv-shared-text-with-see-more",
   str "section[id=\x27about\x27] .inline-show-more-text",
   str "section[id=\x27about\x27] .pv-shared-text-with-see-more",
   str "[data-section=\x27summary\x27] .inline-show-more-text",
   str "[data-section=\x27summary\x27]",
   str "#about",
   str "section[id*=\x27about\x27]"]

/- ----------------------------------------------------------------- -/
/- Selector cascades                                                  -/
/- ----------------------------------------------------------------- -/

/-- The single-element cascade of scraper.py lines 233-240 and 250-257:
    try selectors in order; a selector with no match (a
    NoSuchElementException from `find_element`) is skipped, as is a first
    match whose stripped text is empty; the first non-empty stripped text
    is returned; with no result the field keeps its initial empty value. -/
def resolveSingle (p : Page) : List Str → Str
  | [] => []
  | sel :: rest =>
    match (p.query sel).head? with
    | none => resolveSingle p rest
    | some el =>
      if (trim el.text).isEmpty then resolveSingle p rest
      else trim el.text

/-- The filter of scraper.py line 272: keep stripped text that is
    non-empty and either bullet-free or longer than 5 characters. -/
def locationFilterOk (t : Str) : Bool :=
  !t.isEmpty && (!t.contains '•' || decide (t.length > 5))

/-- The filter of scraper.py line 403: keep stripped text that is
    non-empty, longer than 20 characters and whose first 10 characters do
    not contain the section label "About". -/
def aboutFilterOk (t : Str) : Bool :=
  !t.isEmpty && decide (t.length > 20) && !hasSub (str "About") (t.take 10)

/-- First element in DOM order whose stripped text passes the filter. -/
def firstPassing (ok : Str → Bool) : List Element → Option Str
  | [] => none
  | el :: rest =>
    if ok (trim el.text) then some (trim el.text) else firstPassing ok rest

/-- The multi-element cascade of scraper.py lines 267-278 and 397-409:
    for each selector scan all matches in order and return the first
    stripped text passing the filter; otherwise fall through to the next
    selector; with no result the field keeps its initial empty value. -/
def resolveMulti (ok : Str → Bool) (p : Page) : List Str → Str
  | [] => []
  | sel :: rest =>
    match firstPassing ok (p.query sel) with
    | some t => t
    | none => resolveMulti ok p rest

/- ----------------------------------------------------------------- -/
/- Company extraction                                                 -/
/- ----------------------------------------------------------------- -/

/-- Scraper.py lines 300-308: split the entry text into stripped lines
    that are non-empty and longer than 2 characters; the second such line
    (else the only one, else the whole entry text) is the company. -/
def companyFromEntry (companyText : Str) : Str :=
  let lines := ((splitOn (str "\n") companyText).map trim).filter
    (fun l => !l.isEmpty && decide (l.length > 2))
  if lines.length ≥ 2 then lines.getD 1 []
  else if lines.length = 1 then lines.getD 0 []
  else companyText

/-- Scraper.py lines 282-313: stage-1 company extraction.  Walk the
    experience-section selector cascade; for the first section found whose
    first child entry is found and has non-empty stripped text, take
    `companyFromEntry` of that text; any not-found step falls through to
    the next candidate. -/
def companyStage1 (p : Page) : List Str → Option Str
  | [] => none
  | sel :: rest =>
    match (p.query sel).head? with
    | none => companyStage1 p rest
    | some sec =>
      match (sec.sub first_position_selector).head? with
      | none => companyStage1 p rest
      | some fp =>
        if (trim fp.text).isEmpty then companyStage1 p rest
        else some (companyFromEntry (trim fp.text))

/-- Scraper.py lines 318-323: cut the headline before the first " || "
    (else before the first " | "). -/
def truncateHeadline (h0 : Str) : Str :=
  if hasSub (str " || ") h0 then (splitOn (str " || ") h0).getD 0 []
  else if hasSub (str " | ") h0 then (splitOn (str " | ") h0).getD 0 []
  else h0

/-- Scraper.py lines 330-332 and 338-339: if the candidate ends with
    " ||" or " |", drop its last three characters and re-strip. -/
def cleanupSuffix (company : Str) : Str :=
  if trailsWith (str " ||") company || trailsWith (str " |") company then
    trim (company.take (company.length - 3))
  else company

/-- Scraper.py lines 343-350: the keyword-branch separator loop — for the
    first separator present whose once-split tail, cut at " ||" then at
    " |" and stripped, is non-empty, return that tail. -/
def sepLoop (headline : Str) : List Str → Str
  | [] => []
  | sep :: rest =>
    if hasSub sep headline then
      let parts := splitOnce sep headline
      if 1 < parts.length then
        let company := trim ((splitOn (str " |")
          ((splitOn (str " ||") (parts.getD 1 [])).getD 0 [])).getD 0 [])
        if company.isEmpty then sepLoop headline rest else company
      else sepLoop headline rest
    else sepLoop headline rest

/-- Scraper.py lines 326-350 after truncation: split on " at " (else on
    " @ ") and take the stripped last part with suffix cleanup; else, when
    the headline mentions Intern/Developer/Engineer, run the separator
    loop over " @ ", " at ", " - "; else leave the company empty. -/
def companyFromHeadlineCore (headline : Str) : Str :=
  if hasSub (str " at ") headline then
    let parts := splitOn (str " at ") headline
    if 1 < parts.length then cleanupSuffix (trim (parts.getLastD [])) else []
  else if hasSub (str " @ ") headline then
    let parts := splitOn (str " @ ") headline
    if 1 < parts.length then cleanupSuffix (trim (parts.getLastD [])) else []
  else if hasSub (str "Intern") headline || hasSub (str "Developer") headline ||
      hasSub (str "Engineer") headline then
    sepLoop headline [str " @ ", str " at ", str " - "]
  else []

/-- Scraper.py lines 316-350: stage-2 company-from-headline fallback. -/
def companyFromHeadline (h0 : Str) : Str :=
  companyFromHeadlineCore (truncateHeadline h0)

/-- Scraper.py lines 280-350: the final Company field — stage 1, then,
    when that left the company empty and a headline was extracted,
    stage 2. -/
def companyField (p : Page) (headline : Str) : Str :=
  let c1 := match companyStage1 p experience_selectors with
    | some c => c
    | none => []
  if c1.isEmpty && !headline.isEmpty then companyFromHeadline headline else c1

/- ----------------------------------------------------------------- -/
/- About extraction and the full record                               -/
/- ----------------------------------------------------------------- -/

/-- Scraper.py lines 384-429: the about-content cascade, then the
    script-based next-sibling fallback accepted only when longer than 20
    characters. -/
def aboutField (p : Page) : Str :=
  let a := resolveMulti aboutFilterOk p about_selectors
  if a.isEmpty then
    match p.aboutSibling with
    | some t => if !t.isEmpty && decide (t.length > 20) then t else []
    | none => []
  else a

/-- Scraper.py lines 212-434: field extraction from a fetched page. -/
def extractFromPage (p : Page) : ProfileRecord :=
  let hl := resolveSingle p headline_selectors
  { name := resolveSingle p name_selectors,
    headline := hl,
    company := companyField p hl,
    location := resolveMulti locationFilterOk p location_selectors,
    about := aboutField p }

/-- Outcome of `driver.get` plus the page-load wait for one URL: a
    rendered page, or an exception. -/
inductive Fetched where
  | page (p : Page)
  | err

/-- Scraper.py lines 196-444: per-URL extraction; any exception while
    fetching or extracting yields the all-empty record (lines 436-444). -/
def extract_profile_data (fetch : Str → Fetched) (url : Str) : ProfileRecord :=
  match fetch url with
  | .page p => extractFromPage p
  | .err => emptyRecord

/-- The accumulator loop of scraper.py lines 516-526: one append per URL. -/
def scrapeGo (fetch : Str → Fetched) : List Str → List ProfileRecord → List ProfileRecord
  | [], acc => acc
  | url :: rest, acc => scrapeGo fetch rest (acc ++ [extract_profile_data fetch url])

/-- Scraper.py lines 516-529: the batch loop collecting one record per URL. -/
def scrape_profiles (fetch : Str → Fetched) (urls : List Str) : List ProfileRecord :=
  scrapeGo fetch urls []

/- ----------------------------------------------------------------- -/
/- Claim-word models for C3 (to be compared with the code's           -/
/- `companyFromHeadline`)                                             -/
/- ----------------------------------------------------------------- -/

/-- Truncation as the claim words it: cut before the FIRST " || "
    (else before the FIRST " | ").  Provably equal to the code's
    `truncateHeadline`. -/
def truncateHeadlineFirst (h0 : Str) : Str :=
  if hasSub (str " || ") h0 then (splitOnce (str " || ") h0).getD 0 []
  else if hasSub (str " | ") h0 then (splitOnce (str " | ") h0).getD 0 []
  else h0

/-- Claim C3's cleanup, word for word: remove a trailing " ||" or a
    trailing " |" and trim. -/
def dropTrailBar (c : Str) : Str :=
  if trailsWith (str " ||") c then trim (c.take (c.length - 3))
  else if trailsWith (str " |") c then trim (c.take (c.length - 2))
  else trim c

/-- Claim C3 read literally: after truncation, search " at ", " @ ",
    " - " in that order; for the first separator present, the substring
    after it (cleaned by `dropTrailBar`) is the company; else empty. -/
def companyFromHeadlineClaimed (h0 : Str) : Str :=
  let headline := truncateHeadlineFirst h0
  if hasSub (str " at ") headline then
    dropTrailBar ((splitOnce (str " at ") headline).getD 1 [])
  else if hasSub (str " @ ") headline then
    dropTrailBar ((splitOnce (str " @ ") headline).getD 1 [])
  else if hasSub (str " - ") headline then
    dropTrailBar ((splitOnce (str " - ") headline).getD 1 [])
  else []

/-- The amended claim C3, stated as a function of the truncated headline:
    " at " then " @ " are searched in that order, taking the trimmed text
    after the LAST occurrence with the code's three-character suffix
    cleanup; " - " is consulted only when neither occurs and the headline
    mentions "Intern", "Developer" or "Engineer", taking the text after
    its FIRST occurrence cut before the first " ||" then the first " |"
    and trimmed; else the company is empty. -/
def companyFromHeadlineAmendedCore (headline : Str) : Str :=
  if hasSub (str " at ") headline then
    cleanupSuffix (trim ((splitOn (str " at ") headline).getLastD []))
  else if hasSub (str " @ ") headline then
    cleanupSuffix (trim ((splitOn (str " @ ") headline).getLastD []))
  else if (hasSub (str "Intern") headline || hasSub (str "Developer") headline ||
      hasSub (str "Engineer") headline) && hasSub (str " - ") headline then
    trim ((splitOnce (str " |") ((splitOnce (str " ||")
      ((splitOnce (str " - ") headline).getD 1 [])).getD 0 [])).getD 0 [])
  else []

/-- The amended claim C3 on the raw headline. -/
def companyFromHeadlineAmended (h0 : Str) : Str :=
  companyFromHeadlineAmendedCore (truncateHeadlineFirst h0)

/- ----------------------------------------------------------------- -/
/- Output writing (scraper.py lines 469-491)                          -/
/- ----------------------------------------------------------------- -/

/-- Scraper.py line 481. -/
def fieldnames : List Str :=
  [str "Name", str "Headline", str "Company", str "Location", str "About"]

/-- csv QUOTE_MINIMAL: a field is quoted iff it holds the delimiter, the
    quote character or a newline character. -/
def csvNeedsQuote (f : Str) : Bool :=
  f.contains ',' || f.contains '"' || f.contains '\r' || f.contains '\n'

def csvEscChar (c : Char) : Str :=
  if c = '"' then ['"', '"'] else [c]

def csvField (f : Str) : Str :=
  if csvNeedsQuote f then '"' :: ((f.map csvEscChar).flatten ++ ['"']) else f

/-- One `csv.DictWriter` row in the fixed field order, CRLF-terminated. -/
def csvRow (r : ProfileRecord) : Str :=
  List.intercalate (str ",")
    [csvField r.name, csvField r.headline, csvField r.company,
     csvField r.location, csvField r.about] ++ str "\r\n"

/-- The fixed header row written by `writer.writeheader()`. -/
def csvHeaderLine : Str :=
  List.intercalate (str ",") fieldnames ++ str "\r\n"

/-- The full file content one write produces: header then one row per
    record in order. -/
def csvContent (records : List ProfileRecord) : Str :=
  csvHeaderLine ++ (records.map csvRow).flatten

/-- Scraper.py lines 469-491 as a transformer of the output file's
    content (`none` = no file): mode "w" truncates and rewrites; an empty
    record list returns early (line 477-479) without touching the file. -/
def save_to_csv (fileBefore : Option Str) (records : List ProfileRecord) : Option Str :=
  if records.isEmpty then fileBefore else some (csvContent records)

/-- The vocabulary of file-level operations the claim speaks of.
    `flushFile` and `verifyAfter` are named so their absence from the
    code's trace can be stated. -/
inductive FileOp where
  | checkBefore         -- line 484: os.path.exists, computed before the write
  | openTruncate        -- line 486: open(filename, "w")
  | writeHeader         -- line 488
  | writeRows (n : Nat) -- line 489
  | closeFile           -- end of the with-block
  | flushFile           -- a durability flush: not performed by the code
  | verifyAfter         -- a post-write existence check: not performed
deriving DecidableEq

/-- The sequence of file operations scraper.py lines 469-491 performs. -/
def save_to_csv_ops (records : List ProfileRecord) : List FileOp :=
  if records.isEmpty then []
  else [FileOp.checkBefore, FileOp.openTruncate, FileOp.writeHeader,
        FileOp.writeRows records.length, FileOp.closeFile]

/- ----------------------------------------------------------------- -/
/- Concrete witness fixtures                                          -/
/- ----------------------------------------------------------------- -/

def fetchErr : Str → Fetched := fun _ => Fetched.err

def wsOnlyElement : Element := Element.mk (str "   ") (fun _ => [])

def acmeElement : Element := Element.mk (str "Acme Corp") (fun _ => [])

/-- A page on which selector "selA" matches nothing, "selB" matches only
    a whitespace-text element and anything else matches "Acme Corp". -/
def pageC4 : Page :=
  { query := fun sel =>
      if sel = str "selA" then []
      else if sel = str "selB" then [wsOnlyElement]
      else [acmeElement],
    aboutSibling := none }

def entryTextC7 : Str := str "Software Engineer\nAcme Corp\nJan 2020 - Present"

def entryElemC7 : Element := Element.mk entryTextC7 (fun _ => [])

def sectionElemC7 : Element := Element.mk [] (fun _ => [entryElemC7])

def pageC7 : Page := { query := fun _ => [sectionElemC7], aboutSibling := none }

def entryTextC10 : Str := str "a\nb"

def entryElemC10 : Element := Element.mk entryTextC10 (fun _ => [])

def sectionElemC10 : Element := Element.mk [] (fun _ => [entryElemC10])

def pageC10 : Page := { query := fun _ => [sectionElemC10], aboutSibling := none }

/- ----------------------------------------------------------------- -/
/- Helper lemmas                                                      -/
/- ----------------------------------------------------------------- -/

theorem splitOnF_ne_nil (sep : Str) (fuel : Nat) (s : Str) : splitOnF sep fuel s ≠ [] := by
  match fuel, s with
  | _, [] => simp [splitOnF]
  | 0, c :: rest => simp [splitOnF]
  | fuel + 1, c :: rest =>
    rw [splitOnF]
    split
    · simp
    · split <;> simp

theorem splitOnce_ne_nil (sep s : Str) : splitOnce sep s ≠ [] := by
  match s with
  | [] => simp [splitOnce]
  | c :: rest =>
    rw [splitOnce]
    split
    · simp
    · split <;> simp

/-- With enough fuel, the first piece of `splitOnF` is the first piece of
    `splitOnce`. -/
theorem splitOnF_headD (sep : Str) (fuel : Nat) : ∀ s : Str, s.length ≤ fuel →
    (splitOnF sep fuel s).getD 0 [] = (splitOnce sep s).getD 0 [] := by
  induction fuel with
  | zero =>
    intro s hs
    have : s = [] := by
      cases s with
      | nil => rfl
      | cons c rest => simp at hs
    subst this
    rfl
  | succ fuel ih =>
    intro s hs
    cases s with
    | nil => rfl
    | cons c rest =>
      rw [splitOnF, splitOnce]
      by_cases hl : leadsWith sep (c :: rest) = true
      · simp [hl]
      · have hrest : rest.length ≤ fuel := by
          simp only [List.length_cons] at hs
          omega
        rcases e1 : splitOnF sep fuel rest with _ | ⟨p, ps⟩
        · exact absurd e1 (splitOnF_ne_nil sep fuel rest)
        · rcases e2 : splitOnce sep rest with _ | ⟨q, qs⟩
          · exact absurd e2 (splitOnce_ne_nil sep rest)
          · have hpq := ih rest hrest
            rw [e1, e2] at hpq
            simp only [List.getD, List.get?, Option.getD] at hpq
            simp [hl, e1, e2, hpq]

theorem splitOn_headD (sep s : Str) :
    (splitOn sep s).getD 0 [] = (splitOnce sep s).getD 0 [] :=
  splitOnF_headD sep s.length s (Nat.le_refl _)

/-- A separator that occurs in the string makes `splitOnF` produce at
    least two pieces. -/
theorem splitOnF_gt_one (sep : Str) (hsep : sep ≠ []) (fuel : Nat) : ∀ s : Str,
    s.length ≤ fuel → hasSub sep s = true → 1 < (splitOnF sep fuel s).length := by
  induction fuel with
  | zero =>
    intro s hs h
    cases s with
    | nil =>
      cases sep with
      | nil => exact absurd rfl hsep
      | cons x xs => simp [hasSub, leadsWith] at h
    | cons c rest => simp at hs
  | succ fuel ih =>
    intro s hs h
    cases s with
    | nil =>
      cases sep with
      | nil => exact absurd rfl hsep
      | cons x xs => simp [hasSub, leadsWith] at h
    | cons c rest =>
      rw [splitOnF]
      by_cases hl : leadsWith sep (c :: rest) = true
      · have hne := splitOnF_ne_nil sep fuel (rest.drop (sep.length - 1))
        have := List.length_pos.mpr hne
        simp only [hl, if_true, List.length_cons]
        omega
      · have h2 : hasSub sep rest = true := by
          rw [hasSub, Bool.or_eq_true] at h
          rcases h with h | h
          · exact absurd h hl
          · exact h
        have hrest : rest.length ≤ fuel := by
          simp only [List.length_cons] at hs
          omega
        rcases e1 : splitOnF sep fuel rest with _ | ⟨p, ps⟩
        · exact absurd e1 (splitOnF_ne_nil sep fuel rest)
        · have hlen := ih rest hrest h2
          rw [e1] at hlen
          simp only [List.length_cons] at hlen
          simp [hl, e1]
          omega

theorem splitOn_gt_one (sep s : Str) (hsep : sep ≠ []) (h : hasSub sep s = true) :
    1 < (splitOn sep s).length :=
  splitOnF_gt_one sep hsep s.length s (Nat.le_refl _) h

theorem splitOnce_gt_one (sep : Str) (hsep : sep ≠ []) : ∀ s : Str,
    hasSub sep s = true → 1 < (splitOnce sep s).length := by
  intro s
  induction s with
  | nil =>
    intro h
    cases sep with
    | nil => exact absurd rfl hsep
    | cons x xs => simp [hasSub, leadsWith] at h
  | cons c rest ih =>
    intro h
    rw [splitOnce]
    by_cases hl : leadsWith sep (c :: rest) = true
    · simp [hl]
    · have h2 : hasSub sep rest = true := by
        rw [hasSub, Bool.or_eq_true] at h
        rcases h with h | h
        · exact absurd h hl
        · exact h
      rcases e1 : splitOnce sep rest with _ | ⟨p, ps⟩
      · exact absurd e1 (splitOnce_ne_nil sep rest)
      · have hlen := ih h2
        rw [e1] at hlen
        simp only [List.length_cons] at hlen
        simp [hl, e1]
        omega

theorem leadsWith_append (x : Str) : ∀ a b : Str,
    leadsWith x a = true → leadsWith x (a ++ b) = true := by
  induction x with
  | nil => intro a b _; simp [leadsWith]
  | cons y ys ih =>
    intro a b h
    cases a with
    | nil => simp [leadsWith] at h
    | cons c cs =>
      rw [leadsWith, Bool.and_eq_true] at h
      rw [List.cons_append, leadsWith, Bool.and_eq_true]
      exact ⟨h.1, ih cs b h.2⟩

theorem hasSub_nil_sub (s : Str) : hasSub [] s = true := by
  cases s <;> simp [hasSub, leadsWith]

theorem hasSub_append (x : Str) : ∀ a b : Str,
    hasSub x a = true → hasSub x (a ++ b) = true := by
  intro a
  induction a with
  | nil =>
    intro b h
    cases x with
    | nil => exact hasSub_nil_sub b
    | cons y ys => simp [hasSub, leadsWith] at h
  | cons c cs ih =>
    intro b h
    rw [hasSub, Bool.or_eq_true] at h
    rw [List.cons_append, hasSub, Bool.or_eq_true]
    rcases h with h | h
    · exact Or.inl (by simpa using leadsWith_append x (c :: cs) b h)
    · exact Or.inr (ih b h)

/-- The first piece of a split is a prefix of the string. -/
theorem splitOnF_headD_pre (sep : Str) (fuel : Nat) : ∀ s : Str,
    ∃ t, (splitOnF sep fuel s).getD 0 [] ++ t = s := by
  induction fuel with
  | zero =>
    intro s
    cases s with
    | nil => exact ⟨[], rfl⟩
    | cons c rest => exact ⟨[], by simp [splitOnF]⟩
  | succ fuel ih =>
    intro s
    cases s with
    | nil => exact ⟨[], rfl⟩
    | cons c rest =>
      rw [splitOnF]
      by_cases hl : leadsWith sep (c :: rest) = true
      · exact ⟨c :: rest, by simp [hl]⟩
      · rcases e1 : splitOnF sep fuel rest with _ | ⟨p, ps⟩
        · exact absurd e1 (splitOnF_ne_nil sep fuel rest)
        · obtain ⟨t, ht⟩ := ih rest
          rw [e1] at ht
          simp only [List.getD, List.get?, Option.getD] at ht
          exact ⟨t, by simp [hl, e1]; simpa using ht⟩

/-- A substring absent from the whole string is absent from the first
    piece of any split of it. -/
theorem hasSub_splitOn_headD (x sep s : Str) (h : hasSub x s = false) :
    hasSub x ((splitOn sep s).getD 0 []) = false := by
  obtain ⟨t, ht⟩ := splitOnF_headD_pre sep s.length s
  cases e : hasSub x ((splitOn sep s).getD 0 []) with
  | false => rfl
  | true =>
    have : hasSub x s = true := by
      rw [← ht]
      exact hasSub_append x _ t (by simpa [splitOn] using e)
    rw [this] at h
    cases h

/-- Truncation cannot introduce a substring. -/
theorem hasSub_truncate (x h0 : Str) (h : hasSub x h0 = false) :
    hasSub x (truncateHeadline h0) = false := by
  unfold truncateHeadline
  split
  · exact hasSub_splitOn_headD x (str " || ") h0 h
  · split
    · exact hasSub_splitOn_headD x (str " | ") h0 h
    · exact h

/-- The code's truncation (full split, first piece) equals the claim's
    (split once, first piece). -/
theorem truncateHeadline_eq (h0 : Str) : truncateHeadline h0 = truncateHeadlineFirst h0 := by
  unfold truncateHeadline truncateHeadlineFirst
  by_cases h2 : hasSub (str " || ") h0 = true
  · rw [if_pos h2, if_pos h2]
    exact splitOn_headD _ _
  · by_cases h1 : hasSub (str " | ") h0 = true
    · rw [if_neg h2, if_neg h2, if_pos h1, if_pos h1]
      exact splitOn_headD _ _
    · rw [if_neg h2, if_neg h2, if_neg h1, if_neg h1]

/-- The batch loop's accumulator law. -/
theorem scrapeGo_eq (fetch : Str → Fetched) : ∀ (urls : List Str) (acc : List ProfileRecord),
    scrapeGo fetch urls acc = acc ++ urls.map (extract_profile_data fetch) := by
  intro urls
  induction urls with
  | nil => intro acc; simp [scrapeGo]
  | cons u rest ih =>
    intro acc
    rw [scrapeGo, ih, List.map_cons]
    simp

/-- Stage-1 company extraction when the first candidate selector finds a
    section whose first child entry has non-empty stripped text. -/
theorem companyStage1_found (p : Page) (sel : Str) (rest : List Str)
    (sec : Element) (es : List Element) (fp : Element) (fs : List Element)
    (hq : p.query sel = sec :: es)
    (hsub : sec.sub first_position_selector = fp :: fs)
    (hne : (trim fp.text).isEmpty = false) :
    companyStage1 p (sel :: rest) = some (companyFromEntry (trim fp.text)) := by
  simp [companyStage1, hq, hsub, hne]

/-- Claim C1: for every input URL list the batch loop produces exactly one
    record per URL, in input order (record i is the extraction of URL i),
    with none dropped and none duplicated; a URL whose fetch fails still
    contributes a record (the all-empty one). -/
theorem scrape_profiles_one_record_per_url (fetch : Str → Fetched) (urls : List Str) :
    (scrape_profiles fetch urls).length = urls.length ∧
    (∀ i : Nat, (scrape_profiles fetch urls)[i]? = (urls[i]?).map (extract_profile_data fetch)) ∧
    (∀ i : Nat, ∀ u : Str, urls[i]? = some u → fetch u = Fetched.err →
      (scrape_profiles fetch urls)[i]? = some emptyRecord) := by
  have hmap : scrape_profiles fetch urls = urls.map (extract_profile_data fetch) := by
    rw [scrape_profiles, scrapeGo_eq]
    simp
  refine ⟨?_, ?_, ?_⟩
  · rw [hmap, List.length_map]
  · intro i
    rw [hmap, List.getElem?_map]
  · intro i u hu hf
    rw [hmap, List.getElem?_map, hu]
    simp [extract_profile_data, hf]

theorem scrape_profiles_one_record_per_url_witness :
    (scrape_profiles fetchErr [str "http://a"])[0]? = some emptyRecord :=
  (scrape_profiles_one_record_per_url fetchErr [str "http://a"]).2.2 0 (str "http://a") rfl rfl

/-- Claim C2: any exception raised while fetching or extracting one
    profile makes `extract_profile_data` return the all-empty record
    instead of propagating, and the batch still processes the remaining
    URLs. -/
theorem extract_err_empty_and_continue (fetch : Str → Fetched) (url : Str) (rest : List Str)
    (h : fetch url = Fetched.err) :
    extract_profile_data fetch url = emptyRecord ∧
    scrape_profiles fetch (url :: rest) = emptyRecord :: scrape_profiles fetch rest := by
  have he : extract_profile_data fetch url = emptyRecord := by
    simp [extract_profile_data, h]
  refine ⟨he, ?_⟩
  rw [scrape_profiles, scrape_profiles, scrapeGo_eq, scrapeGo_eq]
  simp [he]

theorem extract_err_empty_and_continue_witness :
    extract_profile_data fetchErr (str "http://a") = emptyRecord ∧
    scrape_profiles fetchErr [str "http://a", str "http://b"] =
      emptyRecord :: scrape_profiles fetchErr [str "http://b"] :=
  extract_err_empty_and_continue fetchErr (str "http://a") [str "http://b"] rfl

/-- Claim C4: the selector cascade skips a candidate that matches nothing
    and skips elements whose text is whitespace-only after trimming, in
    both the single-element and the multi-element (location) loops: with
    candidates [a, b, c] where a matches nothing, b matches only a
    whitespace-text element and c matches an element with text
    "Acme Corp", resolving returns "Acme Corp". -/
theorem cascade_skip_semantics (p : Page) (a b c : Str) (wsText : Str)
    (wsSub acmeSub : Str → List Element) (tail : List Element)
    (ha : p.query a = []) (hb : p.query b = [Element.mk wsText wsSub])
    (hw : trim wsText = [])
    (hc : p.query c = Element.mk (str "Acme Corp") acmeSub :: tail) :
    resolveSingle p [a, b, c] = str "Acme Corp" ∧
    resolveMulti locationFilterOk p [a, b, c] = str "Acme Corp" := by
  constructor
  · simp only [resolveSingle, ha, hb, hc, List.head?, Element.text, hw]
    decide
  · simp only [resolveMulti, firstPassing, ha, hb, hc, Element.text, hw]
    rw [if_neg (by decide), if_pos (by decide)]
    decide

theorem cascade_skip_semantics_witness :
    resolveSingle pageC4 [str "selA", str "selB", str "selC"] = str "Acme Corp" ∧
    resolveMulti locationFilterOk pageC4 [str "selA", str "selB", str "selC"] = str "Acme Corp" :=
  cascade_skip_semantics pageC4 (str "selA") (str "selB") (str "selC") (str "   ")
    (fun _ => []) (fun _ => []) [] rfl rfl (by decide) rfl

/-- Claim C7: in stage-1 company extraction the entry text is split into
    trimmed non-empty lines longer than 2 characters; with at least two
    such lines the second becomes the company, with exactly one that line
    becomes the company. -/
theorem companyStage1_second_line (p : Page) (sel : Str) (rest : List Str)
    (sec : Element) (es : List Element) (fp : Element) (fs : List Element)
    (hq : p.query sel = sec :: es)
    (hsub : sec.sub first_position_selector = fp :: fs)
    (hne : (trim fp.text).isEmpty = false) :
    (2 ≤ (((splitOn (str "\n") (trim fp.text)).map trim).filter
        (fun l => !l.isEmpty && decide (l.length > 2))).length →
      companyStage1 p (sel :: rest) =
        some ((((splitOn (str "\n") (trim fp.text)).map trim).filter
          (fun l => !l.isEmpty && decide (l.length > 2))).getD 1 [])) ∧
    ((((splitOn (str "\n") (trim fp.text)).map trim).filter
        (fun l => !l.isEmpty && decide (l.length > 2))).length = 1 →
      companyStage1 p (sel :: rest) =
        some ((((splitOn (str "\n") (trim fp.text)).map trim).filter
          (fun l => !l.isEmpty && decide (l.length > 2))).getD 0 [])) := by
  have h1 := companyStage1_found p sel rest sec es fp fs hq hsub hne
  constructor
  · intro hlen
    rw [h1]
    simp only [companyFromEntry]
    rw [if_pos hlen]
  · intro hlen
    rw [h1]
    simp only [companyFromEntry]
    rw [if_neg (by omega), if_pos hlen]

theorem companyStage1_second_line_witness :
    companyStage1 pageC7 [str "#experience ~ .pvs-list"] = some (str "Acme Corp") := by
  have h := (companyStage1_second_line pageC7 (str "#experience ~ .pvs-list") []
    sectionElemC7 [] entryElemC7 [] rfl rfl (by decide)).1 (by decide)
  exact h.trans (by decide)

/-- Claim C10: when the first experience entry's stripped text is
    non-empty but no line survives the longer-than-2-characters filter,
    the whole entry text (embedded newlines included) becomes the company
    rather than the field being left empty. -/
theorem companyStage1_unfiltered_fallback (p : Page) (sel : Str) (rest : List Str)
    (sec : Element) (es : List Element) (fp : Element) (fs : List Element)
    (hq : p.query sel = sec :: es)
    (hsub : sec.sub first_position_selector = fp :: fs)
    (hne : (trim fp.text).isEmpty = false)
    (hlen : (((splitOn (str "\n") (trim fp.text)).map trim).filter
        (fun l => !l.isEmpty && decide (l.length > 2))).length = 0) :
    companyStage1 p (sel :: rest) = some (trim fp.text) := by
  have h1 := companyStage1_found p sel rest sec es fp fs hq hsub hne
  rw [h1]
  simp only [companyFromEntry]
  rw [if_neg (by omega), if_neg (by omega)]

theorem companyStage1_unfiltered_fallback_witness :
    companyStage1 pageC10 [str "#experience"] = some (str "a\nb") := by
  have h := companyStage1_unfiltered_fallback pageC10 (str "#experience") []
    sectionElemC10 [] entryElemC10 [] rfl rfl (by decide) (by decide)
  exact h.trans (by decide)

/-- Claim C8: the location filter accepts a trimmed candidate text iff it
    is non-empty and either bullet-free or longer than 5 characters; the
    lone bullet "•" is rejected while "Remote • USA" is accepted. -/
theorem locationFilterOk_spec :
    (∀ t : Str,
      (t ≠ [] ∧ (t.contains '•' = false ∨ 5 < t.length) → locationFilterOk t = true) ∧
      (locationFilterOk t = true → t ≠ [] ∧ (t.contains '•' = false ∨ 5 < t.length))) ∧
    locationFilterOk (str "•") = false ∧
    locationFilterOk (str "Remote • USA") = true := by
  refine ⟨?_, by decide, by decide⟩
  intro t
  constructor
  · rintro ⟨h1, h2⟩
    rw [locationFilterOk, Bool.and_eq_true, Bool.or_eq_true]
    have hne : t.isEmpty = false := by
      cases t with
      | nil => exact absurd rfl h1
      | cons c cs => rfl
    refine ⟨by rw [hne]; rfl, ?_⟩
    rcases h2 with h2 | h2
    · exact Or.inl (by rw [h2]; rfl)
    · exact Or.inr (decide_eq_true h2)
  · intro h
    rw [locationFilterOk, Bool.and_eq_true, Bool.or_eq_true] at h
    obtain ⟨h1, h2⟩ := h
    constructor
    · intro hteq
      rw [hteq] at h1
      exact absurd h1 (by decide)
    · rcases h2 with h2 | h2
      · left
        cases e : t.contains '\u2022' with
        | false => rfl
        | true => rw [e] at h2; exact absurd h2 (by decide)
      · exact Or.inr (of_decide_eq_true h2)

theorem locationFilterOk_spec_witness : locationFilterOk (str "Remote • USA") = true :=
  (locationFilterOk_spec.1 (str "Remote • USA")).1 ⟨by decide, Or.inr (by decide)⟩

/-- The code's post-truncation company heuristic equals the amended
    claim's description of it. -/
theorem companyFromHeadlineCore_eq (t : Str) :
    companyFromHeadlineCore t = companyFromHeadlineAmendedCore t := by
  simp only [companyFromHeadlineCore, companyFromHeadlineAmendedCore]
  by_cases hat : hasSub (str " at ") t = true
  · rw [if_pos hat, if_pos hat, if_pos (splitOn_gt_one (str " at ") t (by decide) hat)]
  · rw [if_neg hat, if_neg hat]
    by_cases ham : hasSub (str " @ ") t = true
    · rw [if_pos ham, if_pos ham, if_pos (splitOn_gt_one (str " @ ") t (by decide) ham)]
    · rw [if_neg ham, if_neg ham]
      by_cases hkw : (hasSub (str "Intern") t || hasSub (str "Developer") t ||
          hasSub (str "Engineer") t) = true
      · rw [if_pos hkw]
        by_cases hd : hasSub (str " - ") t = true
        · rw [if_pos (by rw [hkw, hd]; rfl)]
          simp only [sepLoop]
          rw [if_neg ham, if_neg hat, if_pos hd,
            if_pos (splitOnce_gt_one (str " - ") (by decide) t hd)]
          rw [splitOn_headD, splitOn_headD]
          generalize trim (((splitOnce (str " |")
            (((splitOnce (str " ||")
              (((splitOnce (str " - ") t).getD 1 [])))).getD 0 []))).getD 0 []) = y
          cases y <;> rfl
        · rw [if_neg (by simp only [Bool.and_eq_true, not_and]; exact fun _ => hd)]
          simp only [sepLoop]
          rw [if_neg ham, if_neg hat, if_neg hd]
      · rw [if_neg hkw,
          if_neg (by simp only [Bool.and_eq_true, not_and]; exact fun h _ => hkw h)]

/-- Claim C3 counterexample: on the headline "Manager - Acme" the claim
    as stated yields the company "Acme" (" - " is the first and only
    separator present), but the code yields the empty company: the " - "
    separator is only consulted inside the Intern/Developer/Engineer
    keyword branch. -/
theorem companyFromHeadline_claim_counterexample :
    companyFromHeadlineClaimed (str "Manager - Acme") = str "Acme" ∧
    companyFromHeadline (str "Manager - Acme") = [] ∧
    companyFromHeadline (str "Manager - Acme") ≠
      companyFromHeadlineClaimed (str "Manager - Acme") := by
  refine ⟨by decide, by decide, by decide⟩

/-- Claim C3 as amended: after truncating the headline at the first
    " || " (else at the first " | "), the code searches " at " then " @ "
    and takes the trimmed substring after the LAST occurrence (dropping
    three characters and re-trimming when it ends with " ||" or " |");
    " - " is consulted only when neither occurs and the truncated
    headline contains "Intern", "Developer" or "Engineer", taking the
    substring after its first occurrence truncated at the first " ||"
    then " |" and trimmed; otherwise the company is empty. -/
theorem companyFromHeadline_amended_eq (h0 : Str) :
    companyFromHeadline h0 = companyFromHeadlineAmended h0 := by
  rw [companyFromHeadline, companyFromHeadlineAmended, truncateHeadline_eq]
  exact companyFromHeadlineCore_eq _

theorem companyFromHeadline_amended_eq_witness :
    companyFromHeadline (str "Engineer - Gamma LLC") =
      companyFromHeadlineAmended (str "Engineer - Gamma LLC") :=
  companyFromHeadline_amended_eq (str "Engineer - Gamma LLC")

/-- Claim C6: the company-from-headline heuristic maps
    "Software Engineer at Acme || Teaching Assistant at State U" to
    "Acme" and "Intern @ Beta Inc" to "Beta Inc", and maps any headline
    containing none of the separators " at ", " @ ", " - " to the empty
    company. -/
theorem companyFromHeadline_examples :
    companyFromHeadline (str "Software Engineer at Acme || Teaching Assistant at State U") =
      str "Acme" ∧
    companyFromHeadline (str "Intern @ Beta Inc") = str "Beta Inc" ∧
    ∀ h : Str, hasSub (str " at ") h = false → hasSub (str " @ ") h = false →
      hasSub (str " - ") h = false → companyFromHeadline h = [] := by
  refine ⟨by decide, by decide, ?_⟩
  intro h hat ham hd
  rw [companyFromHeadline]
  have hat' := hasSub_truncate (str " at ") h hat
  have ham' := hasSub_truncate (str " @ ") h ham
  have hd' := hasSub_truncate (str " - ") h hd
  simp only [companyFromHeadlineCore, sepLoop, hat', ham', hd', Bool.false_eq_true,
    if_false, ite_self]

theorem companyFromHeadline_examples_witness : companyFromHeadline (str "Student") = [] :=
  companyFromHeadline_examples.2.2 (str "Student") (by decide) (by decide) (by decide)

/-- Claim C5 counterexample: on a one-record write the code's file
    operations are exactly a pre-write existence check, an open in
    truncating write mode, the header write, the row writes and the
    close — no durability flush and no post-write existence
    verification occurs. -/
theorem save_to_csv_no_flush_counterexample :
    save_to_csv_ops [emptyRecord] =
      [FileOp.checkBefore, FileOp.openTruncate, FileOp.writeHeader,
       FileOp.writeRows 1, FileOp.closeFile] ∧
    FileOp.flushFile ∉ save_to_csv_ops [emptyRecord] ∧
    FileOp.verifyAfter ∉ save_to_csv_ops [emptyRecord] := by
  refine ⟨rfl, by decide, by decide⟩

/-- Claim C5 as amended: writing a non-empty record list fully rewrites
    the file (the result is independent of the previous content, never
    appended); no durability flush and no post-write existence
    verification is performed (the only existence check happens before
    the write); an empty record list returns early and leaves the file
    untouched. -/
theorem save_to_csv_amended (before1 before2 : Option Str) (records : List ProfileRecord)
    (h : records ≠ []) :
    save_to_csv before1 records = save_to_csv before2 records ∧
    save_to_csv before1 records = some (csvContent records) ∧
    FileOp.flushFile ∉ save_to_csv_ops records ∧
    FileOp.verifyAfter ∉ save_to_csv_ops records ∧
    save_to_csv before1 [] = before1 := by
  have he : records.isEmpty = false := by
    cases records with
    | nil => exact absurd rfl h
    | cons r rs => rfl
  refine ⟨?_, ?_, ?_, ?_, rfl⟩
  · simp [save_to_csv, he]
  · simp [save_to_csv, he]
  · simp [save_to_csv_ops, he]
  · simp [save_to_csv_ops, he]

theorem save_to_csv_amended_witness :
    save_to_csv none [emptyRecord] = save_to_csv (some (str "old")) [emptyRecord] ∧
    save_to_csv none [emptyRecord] = some (csvContent [emptyRecord]) ∧
    FileOp.flushFile ∉ save_to_csv_ops [emptyRecord] ∧
    FileOp.verifyAfter ∉ save_to_csv_ops [emptyRecord] ∧
    save_to_csv none [] = none :=
  save_to_csv_amended none (some (str "old")) [emptyRecord] (by decide)

/-- Claim C9 counterexample: with the empty record sequence the writer
    returns early without writing, so writing twice starting from no file
    leaves no file — not the header-plus-rows content the claim
    promises for every record sequence. -/
theorem save_to_csv_twice_empty_counterexample :
    save_to_csv (save_to_csv none []) [] = none ∧
    save_to_csv (save_to_csv none []) [] ≠ some (csvContent []) := by
  refine ⟨rfl, by decide⟩

/-- Claim C9 as amended: writing twice with the same record sequence
    always produces the same file content as writing once (the write is
    idempotent), and for every non-empty sequence that content is the
    fixed five-column header followed by one row per record in order; the
    empty sequence performs no write at all. -/
theorem save_to_csv_idempotent (before : Option Str) (records : List ProfileRecord) :
    save_to_csv (save_to_csv before records) records = save_to_csv before records ∧
    (records ≠ [] →
      save_to_csv before records = some (csvHeaderLine ++ (records.map csvRow).flatten)) := by
  constructor
  · cases e : records.isEmpty
    · simp [save_to_csv, e]
    · simp [save_to_csv, e]
  · intro h
    have he : records.isEmpty = false := by
      cases records with
      | nil => exact absurd rfl h
      | cons r rs => rfl
    simp [save_to_csv, he, csvContent]

theorem save_to_csv_idempotent_witness :
    save_to_csv (save_to_csv none [emptyRecord]) [emptyRecord] =
      save_to_csv none [emptyRecord] ∧
    ([emptyRecord] ≠ [] →
      save_to_csv none [emptyRecord] =
        some (csvHeaderLine ++ ([emptyRecord].map csvRow).flatten)) :=
  save_to_csv_idempotent none [emptyRecord]
